import Mathlib

/-!
Shallow embedding of the data-acquisition client of the Mississauga Library
Activity Booker (src/api/ApiService.ts, with the legacy src/api/ApiService.js
variant embedded alongside where the two differ).

External effects are made explicit inputs:
* the headless-browser session of `refreshCookies` is a `BrowserOutcome`
  (launch failure / post-launch failure / harvested cookie list);
* the HTTP layer of the availability queries is an `HttpOutcome`;
* the catalog file read plus `JSON.parse` step is an `Except String Json`
  (`error` = the file is missing/unreadable or its text is not valid JSON).

JavaScript runtime values are modelled by the `Json` inductive, and the
dynamic-language operations the source relies on (`Object.entries`,
`Object.keys`, property access, `for..of`, `Array.prototype.forEach`,
truthiness, property assignment in strict mode) are modelled by the `js*`
helpers below.  A thrown exception is an `Except.error` carrying the message.
-/

/-- A JavaScript/JSON runtime value. -/
inductive Json where
  | null
  | bool (b : Bool)
  | num (n : Int)
  | str (s : String)
  | arr (elems : List Json)
  | obj (fields : List (String × Json))

/-- The `ApiResponse<T>` shape of src/types/index.ts:
`{success, data?, error?, message?}`. -/
structure ApiResponse (α : Type) where
  success : Bool
  data : Option α
  error : Option String
  message : Option String

/-- The in-memory cookie map (`this.cookies`), cookie name to value,
in insertion order with unique names. -/
abbrev CookieData := List (String × String)

/-- The jar the constructor creates: `this.cookies = {}`. -/
def initialCookies : CookieData := []

/-- JavaScript truthiness of a runtime value. -/
def jsTruthy : Json → Bool
  | .null => false
  | .bool b => b
  | .num n => n != 0
  | .str s => s != ""
  | .arr _ => true
  | .obj _ => true

/-- Property read `j[k]` / `j.k`.  Reading a property of `null` throws;
reading an absent property yields `undefined`, which we conflate with
`Json.null` (the source only ever tests such values for truthiness). -/
def jsGetProp (j : Json) (k : String) : Except String Json :=
  match j with
  | .null => .error ("Cannot read properties of null (reading '" ++ k ++ "')")
  | .obj fields => .ok ((List.lookup k fields).getD .null)
  | .arr elems => .ok (((String.toNat? k).bind (fun i => elems[i]?)).getD .null)
  | _ => .ok .null

/-- Property lookup used in theorem statements: `some v` when an object
carries the field, `none` otherwise. -/
def jsGetField (j : Json) (k : String) : Option Json :=
  match j with
  | .obj fields => List.lookup k fields
  | _ => none

/-- Whether an object's field list carries a key. -/
def hasField (fields : List (String × Json)) (k : String) : Bool :=
  fields.any (fun p => p.1 == k)

/-- Strict-mode property write `obj[k] = v`: overwrite in place when the key
exists (field order kept), append otherwise. -/
def jsSetField (fields : List (String × Json)) (k : String) (v : Json) :
    List (String × Json) :=
  if hasField fields k then
    fields.map (fun p => if p.1 == k then (k, v) else p)
  else fields ++ [(k, v)]

/-- `for (const x of e)`: arrays iterate their elements, strings their
characters; other values throw a TypeError. -/
def jsForOf : Json → Except String (List Json)
  | .arr elems => .ok elems
  | .str s => .ok (s.data.map (fun c => Json.str (String.mk [c])))
  | _ => .error "centerFacilities is not iterable"

/-- `e.forEach(...)`: only arrays have `forEach`; anything else throws. -/
def jsForEach : Json → Except String (List Json)
  | .arr elems => .ok elems
  | _ => .error "facilities.forEach is not a function"

/-- `Object.entries(j)`: throws on `null`, yields the field list of an
object, index/value pairs of an array, index/character pairs of a string,
and nothing for the remaining primitives. -/
def jsEntries : Json → Except String (List (String × Json))
  | .null => .error "Cannot convert undefined or null to object"
  | .obj fields => .ok fields
  | .arr elems => .ok ((elems.enum).map (fun p => (toString p.1, p.2)))
  | .str s => .ok ((s.data.enum).map (fun p => (toString p.1, Json.str (String.mk [p.2]))))
  | _ => .ok []

/-- `Object.keys(j)`. -/
def jsKeys (j : Json) : Except String (List String) :=
  (jsEntries j).map (fun es => es.map Prod.fst)

/-- Cookie map update `acc[cookie.name] = cookie.value` inside the harvest
`reduce`. -/
def jsSetKey (m : CookieData) (k v : String) : CookieData :=
  if m.any (fun p => p.1 == k) then
    m.map (fun p => if p.1 == k then (k, v) else p)
  else m ++ [(k, v)]

/-- `cookies.reduce((acc, cookie) => {acc[cookie.name] = cookie.value; return acc}, {})`:
the harvested page cookies folded into a fresh map, a later cookie of the same
name overwriting the earlier one. -/
def harvestCookies (cs : List (String × String)) : CookieData :=
  cs.foldl (fun acc c => jsSetKey acc c.1 c.2) []

/-- How a `refreshCookies` browser session can go.  `launchFailure` is a
throw from `puppeteer.launch` itself, which in the source happens *before*
the `try` block; `navFailure` is any throw inside the `try` block
(`newPage`, `setUserAgent`, the navigation with its 30 s timeout, or
`page.cookies`); `success` carries the harvested cookie list. -/
inductive BrowserOutcome where
  | launchFailure (message : String)
  | navFailure (message : String)
  | success (cookies : List (String × String))

/-- `ApiService.refreshCookies` of src/api/ApiService.ts.  The result pairs
the method's outcome (`Except.error` = an exception escaped the method) with
the cookie jar after the call. -/
def refreshCookies (jar : CookieData) (browser : BrowserOutcome) :
    Except String (ApiResponse Bool) × CookieData :=
  match browser with
  | .launchFailure msg => (.error msg, jar)
  | .navFailure msg => (.ok ⟨false, none, some msg, none⟩, jar)
  | .success cs =>
      let jar2 := harvestCookies cs
      (.ok ⟨true, some true, none,
            some ("Got " ++ toString jar2.length ++ " cookies")⟩, jar2)

/-- The result shape of the legacy src/api/ApiService.js `refreshCookies`:
`{success: true, cookieCount}` or `{success: false, error}`. -/
structure JsRefreshResult where
  success : Bool
  cookieCount : Option Nat
  error : Option String

/-- `ApiService.refreshCookies` of the legacy src/api/ApiService.js. -/
def refreshCookiesJs (jar : CookieData) (browser : BrowserOutcome) :
    Except String JsRefreshResult × CookieData :=
  match browser with
  | .launchFailure msg => (.error msg, jar)
  | .navFailure msg => (.ok ⟨false, none, some msg⟩, jar)
  | .success cs =>
      let jar2 := harvestCookies cs
      (.ok ⟨true, some jar2.length, none⟩, jar2)

/-- The axios request config both availability methods build. -/
structure Request where
  method : String
  url : String
  params : List (String × String)
  headers : List (String × String)
  timeout : Nat

/-- `this.baseUrl`. -/
def baseUrl : String := "https://anc.ca.apm.activecommunities.com/activemississauga"

/-- `Object.entries(this.cookies).map(([name, value]) => name+"="+value).join("; ")`. -/
def cookieHeader (cookies : CookieData) : String :=
  String.intercalate "; " (cookies.map (fun p => p.1 ++ "=" ++ p.2))

/-- The request `getFacilityAvailability` builds (ApiService.ts lines
108-141): daily endpoint, `start_date = end_date = date`, 10 s timeout,
`now` standing for the `Date.now()` cache-busting token, the serialized
jar attached as a Cookie header when non-empty. -/
def buildDailyRequest (cookies : CookieData) (facilityId date : String)
    (now : Nat) : Request :=
  let startDate := date
  let endDate := date
  let url := baseUrl ++ "/rest/reservation/resource/availability/daily/" ++ facilityId
  let params := [("start_date", startDate), ("end_date", endDate),
    ("customer_id", "0"), ("company_id", "0"), ("locale", "en-US"),
    ("ui_random", toString now)]
  let headers := [("User-Agent",
      "Mozilla/5.0 (Windows NT 10.0; Win64; x64; rv:142.0) Gecko/20100101 Firefox/142.0"),
    ("Accept", "text/html,application/xhtml+xml,application/xml;q=0.9,*/*;q=0.8"),
    ("Accept-Language", "en-CA,en-US;q=0.7,en;q=0.3"),
    ("Referer", baseUrl ++ "/reservation/landing/search/detail/" ++ facilityId)]
  let headers := if cookies.length > 0 then
      headers ++ [("Cookie", cookieHeader cookies)]
    else headers
  ⟨"get", url, params, headers, 10000⟩

/-- The request `getFacilityWeeklyAvailability` builds (ApiService.ts lines
168-198): same daily endpoint, caller-supplied date range, 15 s timeout. -/
def buildWeeklyRequest (cookies : CookieData) (facilityId startDate endDate : String)
    (now : Nat) : Request :=
  let url := baseUrl ++ "/rest/reservation/resource/availability/daily/" ++ facilityId
  let params := [("start_date", startDate), ("end_date", endDate),
    ("customer_id", "0"), ("company_id", "0"), ("locale", "en-US"),
    ("ui_random", toString now)]
  let headers := [("User-Agent",
      "Mozilla/5.0 (Windows NT 10.0; Win64; x64; rv:142.0) Gecko/20100101 Firefox/142.0"),
    ("Accept", "text/html,application/xhtml+xml,application/xml;q=0.9,*/*;q=0.8"),
    ("Accept-Language", "en-CA,en-US;q=0.7,en;q=0.3"),
    ("Referer", baseUrl ++ "/reservation/landing/search/detail/" ++ facilityId)]
  let headers := if cookies.length > 0 then
      headers ++ [("Cookie", cookieHeader cookies)]
    else headers
  ⟨"get", url, params, headers, 15000⟩

/-- Params with one key removed; used to compare two requests up to the
cache-busting token. -/
def stripParam (k : String) (params : List (String × String)) :
    List (String × String) :=
  params.filter (fun p => !(p.1 == k))

/-- What the wire did for an availability request. -/
inductive HttpOutcome where
  | response (status : Nat) (statusText : String) (body : Json)
  | transportError (message : String)

/-- `await axios(config)` with the default `validateStatus`: a 2xx response
resolves, any other status rejects with "Request failed with status code N",
and a transport failure (timeout, DNS, reset) rejects with its own message. -/
def axiosRun : HttpOutcome → Except String (Nat × String × Json)
  | .response status statusText body =>
      if 200 ≤ status ∧ status < 300 then .ok (status, statusText, body)
      else .error ("Request failed with status code " ++ toString status)
  | .transportError msg => .error msg

/-- The `try { await axios(config); ... } catch` tail shared verbatim by the
daily and weekly methods: a 200 with a truthy body is passed through
untouched, anything else becomes a failure result. -/
def availabilityResponse (net : HttpOutcome) : ApiResponse Json :=
  match axiosRun net with
  | .ok (status, statusText, body) =>
      if status == 200 && jsTruthy body then ⟨true, some body, none, none⟩
      else ⟨false, none, some ("HTTP " ++ toString status ++ ": " ++ statusText), none⟩
  | .error msg => ⟨false, none, some msg, none⟩

/-- Trace of one availability call: the result returned to the caller, the
request that was sent, and how many cookie refreshes the call triggered. -/
structure AvailabilityCall where
  response : ApiResponse Json
  request : Request
  refreshCount : Nat

/-- `ApiService.getFacilityAvailability` of src/api/ApiService.ts.  When the
jar is empty the method first runs `await this.refreshCookies()`, which is
*not* wrapped in any `try`: an exception from it escapes the method (the
`Except.error` case) and no request is sent.  Otherwise the request is built
from whatever jar resulted and sent, and the respose handling never touches
the jar. -/
def getFacilityAvailability (cookies : CookieData) (browser : BrowserOutcome)
    (facilityId date : String) (now : Nat) (net : HttpOutcome) :
    Except String AvailabilityCall × CookieData :=
  if cookies.length == 0 then
    match refreshCookies cookies browser with
    | (.error e, cookies2) => (.error e, cookies2)
    | (.ok _, cookies2) =>
        (.ok ⟨availabilityResponse net, buildDailyRequest cookies2 facilityId date now, 1⟩,
         cookies2)
  else
    (.ok ⟨availabilityResponse net, buildDailyRequest cookies facilityId date now, 0⟩,
     cookies)

/-- `ApiService.getFacilityWeeklyAvailability` of src/api/ApiService.ts:
identical flow, weekly request. -/
def getFacilityWeeklyAvailability (cookies : CookieData) (browser : BrowserOutcome)
    (facilityId startDate endDate : String) (now : Nat) (net : HttpOutcome) :
    Except String AvailabilityCall × CookieData :=
  if cookies.length == 0 then
    match refreshCookies cookies browser with
    | (.error e, cookies2) => (.error e, cookies2)
    | (.ok _, cookies2) =>
        (.ok ⟨availabilityResponse net,
              buildWeeklyRequest cookies2 facilityId startDate endDate now, 1⟩,
         cookies2)
  else
    (.ok ⟨availabilityResponse net,
          buildWeeklyRequest cookies facilityId startDate endDate now, 0⟩,
     cookies)

/-- Strict-mode `facility.center_name = centerName` on one element of the
facilities list: objects gain/overwrite the field, any primitive element
makes the assignment throw a TypeError. -/
def jsLabelFacility (centerName : String) (f : Json) : Except String Json :=
  match f with
  | .obj fields => .ok (.obj (jsSetField fields "center_name" (.str centerName)))
  | .null => .error "Cannot set properties of null (setting 'center_name')"
  | _ => .error "Cannot create property 'center_name' on a primitive"

/-- The inner loop of `getAllFacilities`: label every facility of one center
in order, the first throw aborting the whole read. -/
def labelAll (centerName : String) : List Json → Except String (List Json)
  | [] => .ok []
  | f :: fs =>
    match jsLabelFacility centerName f with
    | .error e => .error e
    | .ok f2 =>
      match labelAll centerName fs with
      | .error e => .error e
      | .ok fs2 => .ok (f2 :: fs2)

/-- The outer loop of `getAllFacilities` over `Object.entries(facilitiesJson)`:
`const centerFacilities = centerData.facilities || []` then the `for..of`
push loop. -/
def collectFacilities : List (String × Json) → Except String (List Json)
  | [] => .ok []
  | (centerName, centerData) :: rest =>
    match jsGetProp centerData "facilities" with
    | .error e => .error e
    | .ok fv =>
      match jsForOf (if jsTruthy fv then fv else Json.arr []) with
      | .error e => .error e
      | .ok items =>
        match labelAll centerName items with
        | .error e => .error e
        | .ok labeled =>
          match collectFacilities rest with
          | .error e => .error e
          | .ok tail => .ok (labeled ++ tail)

/-- `ApiService.getAllFacilities` of src/api/ApiService.ts.  The input is the
outcome of `fs.readFile` + `JSON.parse` on data/all_facilities.json; every
throw inside the `try` is caught and shaped into `{success: false, error}`. -/
def getAllFacilitiesRun (input : Except String Json) : Except String (List Json) :=
  match input with
  | .error e => .error e
  | .ok facilitiesJson =>
    match jsEntries facilitiesJson with
    | .error e => .error e
    | .ok entries => collectFacilities entries

/-- Result shaping of `getAllFacilities`: success payload or
`{success: false, error}`. -/
def getAllFacilities (input : Except String Json) : ApiResponse (List Json) :=
  match getAllFacilitiesRun input with
  | .ok facilities => ⟨true, some facilities, none, none⟩
  | .error e => ⟨false, none, some e, none⟩

/-- `ApiService.getFacilitiesByCenter` of src/api/ApiService.ts.  A falsy
`centerName` short-circuits before the document is even indexed; an absent
or falsy entry returns `{success: true, data: []}`; otherwise the facilities
list (`|| []`) is labelled via `forEach` and returned.  The `catch` branch
returns `{success: false, data: [], error}`. -/
def getFacilitiesByCenterRun (input : Except String Json) (centerName : String) :
    Except String (List Json) :=
  match input with
  | .error e => .error e
  | .ok facilitiesJson =>
    if centerName = "" then .ok []
    else
      match jsGetProp facilitiesJson centerName with
      | .error e => .error e
      | .ok centerData =>
        if jsTruthy centerData = false then .ok []
        else
          match jsGetProp centerData "facilities" with
          | .error e => .error e
          | .ok fv =>
            match jsForEach (if jsTruthy fv then fv else Json.arr []) with
            | .error e => .error e
            | .ok items => labelAll centerName items

/-- Result shaping of `getFacilitiesByCenter`. -/
def getFacilitiesByCenter (input : Except String Json) (centerName : String) :
    ApiResponse (List Json) :=
  match getFacilitiesByCenterRun input centerName with
  | .ok facilities => ⟨true, some facilities, none, none⟩
  | .error e => ⟨false, some [], some e, none⟩

/-- UTF code-unit comparison of two character lists, the order
`Array.prototype.sort()` uses for strings (no comparator: code-unit
lexicographic, case-sensitive). -/
def listCharLe : List Char → List Char → Bool
  | [], _ => true
  | _ :: _, [] => false
  | c :: cs, d :: ds =>
      if c.toNat < d.toNat then true
      else if d.toNat < c.toNat then false
      else listCharLe cs ds

/-- The string order of the default Javascript `sort()`. -/
def strLE (a b : String) : Prop := listCharLe a.data b.data = true

instance : DecidableRel strLE := fun a b => by
  unfold strLE
  infer_instance

/-- `ApiService.getUniqueCenters` of src/api/ApiService.ts:
`Object.keys(facilitiesJson).sort()`, success wrapping, and a
`{success: false, data: [], error}` catch branch. -/
def getUniqueCenters (input : Except String Json) : ApiResponse (List String) :=
  match (match input with
    | .error e => .error e
    | .ok facilitiesJson =>
      (jsKeys facilitiesJson).map (fun ks => List.insertionSort strLE ks) :
      Except String (List String)) with
  | .ok centers => ⟨true, some centers, none, none⟩
  | .error e => ⟨false, some [], some e, none⟩

/-- A raw resource record of the catalog document: an arbitrary field list
(`id`, `name`, `type_name`, ... — the loader never inspects them). -/
abbrev RawRecord := List (String × Json)

/-- A well-shaped catalog document: center name to optional facilities list
(`none` = the center record has no `facilities` key). -/
abbrev ShapedDoc := List (String × Option (List RawRecord))

/-- Encoding of one center record of a well-shaped document. -/
def encodeCenter : Option (List RawRecord) → Json
  | none => .obj []
  | some rs => .obj [("facilities", .arr (rs.map Json.obj))]

/-- Entry list of the encoded document. -/
def encodeEntries : ShapedDoc → List (String × Json)
  | [] => []
  | (cn, c) :: rest => (cn, encodeCenter c) :: encodeEntries rest

/-- Encoding of a well-shaped catalog document as the parsed JSON value. -/
def encodeDoc (d : ShapedDoc) : Json :=
  .obj (encodeEntries d)

/-- What the loader makes of one raw record listed under `centerName`. -/
def labelRecord (centerName : String) (r : RawRecord) : Json :=
  .obj (jsSetField r "center_name" (.str centerName))

/-- The flat facility list a well-shaped document should produce: the
concatenation, in document order, of each center's labelled records. -/
def flattenShaped : ShapedDoc → List Json
  | [] => []
  | (cn, c) :: rest => (c.getD []).map (labelRecord cn) ++ flattenShaped rest

/-- Total resource count of a well-shaped document. -/
def totalResources : ShapedDoc → Nat
  | [] => 0
  | (_, c) :: rest => (c.getD []).length + totalResources rest

/-- A concrete raw resource record, for witness instances. -/
def sampleRecord : RawRecord :=
  [("id", Json.str "42"), ("name", Json.str "Gymnasium 1")]

/-- A concrete well-shaped catalog document, for witness instances. -/
def sampleDoc : ShapedDoc :=
  [("Central Library", some [sampleRecord]), ("Port Credit Arena", none)]

/-! ## Helper lemmas -/

theorem listCharLe_total (a b : List Char) :
    listCharLe a b = true ∨ listCharLe b a = true := by
  induction a generalizing b with
  | nil => left; rfl
  | cons c cs ih =>
    cases b with
    | nil => right; rfl
    | cons d ds =>
      rcases Nat.lt_trichotomy c.toNat d.toNat with h | h | h
      · left; simp [listCharLe, h]
      · rcases ih ds with h2 | h2
        · left; simp [listCharLe, h, h2]
        · right; simp [listCharLe, h.symm, h2]
      · right; simp [listCharLe, h, Nat.lt_asymm h]

theorem listCharLe_trans (a b c : List Char) (hab : listCharLe a b = true)
    (hbc : listCharLe b c = true) : listCharLe a c = true := by
  induction a generalizing b c with
  | nil => rfl
  | cons x xs ih =>
    cases b with
    | nil => simp [listCharLe] at hab
    | cons y ys =>
      cases c with
      | nil => simp [listCharLe] at hbc
      | cons z zs =>
        simp only [listCharLe] at hab hbc ⊢
        by_cases h1 : x.toNat < y.toNat
        · by_cases h2 : y.toNat < z.toNat
          · simp [Nat.lt_trans h1 h2]
          · simp only [if_neg h2] at hbc
            by_cases h3 : z.toNat < y.toNat
            · simp [h3] at hbc
            · have hyz : y.toNat = z.toNat :=
                Nat.le_antisymm (Nat.le_of_not_lt h3) (Nat.le_of_not_lt h2)
              simp [hyz ▸ h1]
        · simp only [if_neg h1] at hab
          by_cases h3 : y.toNat < x.toNat
          · simp [h3] at hab
          · simp only [if_neg h3] at hab
            have hxy : x.toNat = y.toNat :=
              Nat.le_antisymm (Nat.le_of_not_lt h3) (Nat.le_of_not_lt h1)
            by_cases h2 : y.toNat < z.toNat
            · simp [hxy ▸ h2]
            · simp only [if_neg h2] at hbc
              by_cases h4 : z.toNat < y.toNat
              · simp [h4] at hbc
              · simp only [if_neg h4] at hbc
                have hyz : y.toNat = z.toNat :=
                  Nat.le_antisymm (Nat.le_of_not_lt h4) (Nat.le_of_not_lt h2)
                have hxz : x.toNat = z.toNat := hxy.trans hyz
                simp only [hxz, Nat.lt_irrefl, if_false]
                exact ih ys zs hab hbc

theorem strLE_total (a b : String) : strLE a b ∨ strLE b a :=
  listCharLe_total a.data b.data

theorem strLE_trans (a b c : String) (hab : strLE a b) (hbc : strLE b c) :
    strLE a c :=
  listCharLe_trans a.data b.data c.data hab hbc

theorem labelAll_obj (centerName : String) (rs : List RawRecord) :
    labelAll centerName (rs.map Json.obj) = .ok (rs.map (labelRecord centerName)) := by
  induction rs with
  | nil => rfl
  | cons r rest ih => simp [labelAll, jsLabelFacility, labelRecord, ih]

theorem collectFacilities_encode (d : ShapedDoc) :
    collectFacilities (encodeEntries d) = .ok (flattenShaped d) := by
  induction d with
  | nil => rfl
  | cons p rest ih =>
    obtain ⟨cn, c⟩ := p
    cases c with
    | none =>
      simp [encodeEntries, collectFacilities, encodeCenter, jsGetProp, jsTruthy,
        jsForOf, labelAll, flattenShaped, ih, List.lookup]
    | some rs =>
      simp [encodeEntries, collectFacilities, encodeCenter, jsGetProp, jsTruthy,
        jsForOf, labelAll_obj, flattenShaped, ih, List.lookup]

theorem flattenShaped_length (d : ShapedDoc) :
    (flattenShaped d).length = totalResources d := by
  induction d with
  | nil => rfl
  | cons p rest ih =>
    obtain ⟨cn, c⟩ := p
    simp [flattenShaped, totalResources, ih]

theorem mem_flattenShaped {f : Json} {d : ShapedDoc}
    (hf : f ∈ flattenShaped d) :
    ∃ p ∈ d, ∃ r ∈ p.2.getD [], f = labelRecord p.1 r := by
  induction d with
  | nil => simp [flattenShaped] at hf
  | cons p rest ih =>
    obtain ⟨cn, c⟩ := p
    simp only [flattenShaped] at hf
    rcases List.mem_append.mp hf with h | h
    · rcases List.mem_map.mp h with ⟨r, hr, rfl⟩
      exact ⟨(cn, c), List.mem_cons_self _ _, r, hr, rfl⟩
    · rcases ih h with ⟨q, hq, r, hr, hfr⟩
      exact ⟨q, List.mem_cons_of_mem _ hq, r, hr, hfr⟩

theorem jsGetField_labelRecord (centerName : String) (r : RawRecord)
    (h : hasField r "center_name" = false) :
    jsGetField (labelRecord centerName r) "center_name" =
      some (Json.str centerName) := by
  simp only [labelRecord, jsGetField, jsSetField, h, Bool.false_eq_true, if_false]
  induction r with
  | nil => simp [List.lookup]
  | cons q qs ih =>
    simp only [hasField, List.any_cons, Bool.or_eq_false_iff] at h
    simp only [List.cons_append, List.lookup]
    have : ("center_name" == q.1) = false := by
      rcases h with ⟨h1, _⟩
      simp only [beq_eq_false_iff_ne] at h1 ⊢
      exact fun e => h1 e.symm
    rw [this]
    simp only [hasField, List.any_cons, Bool.or_eq_false_iff] at ih
    exact ih h.2

/-! ## Claims -/

/-- Claim C1 counterexample: a browser launch failure is thrown by
`puppeteer.launch` *before* the `try` block of `refreshCookies`, so the
exception escapes the method instead of being shaped into
`{success: false, error}`. -/
theorem refreshCookies_launch_escape :
    refreshCookies [] (.launchFailure "Failed to launch the browser process") =
      (.error "Failed to launch the browser process", []) := rfl

/-- Claim C1 (amended): every failure *after* the browser launch (navigation
timeout, network error, cookie read) is caught and returned as
`{success: false, error: message}` without throwing, and the success path
returns a result rather than throwing; a launch failure itself escapes as an
exception (see the counterexample). -/
theorem refreshCookies_postLaunch_no_throw (jar : CookieData) (msg : String)
    (cs : List (String × String)) :
    refreshCookies jar (.navFailure msg) =
      (.ok ⟨false, none, some msg, none⟩, jar) ∧
    (refreshCookies jar (.success cs)).1 =
      .ok ⟨true, some true, none,
           some ("Got " ++ toString (harvestCookies cs).length ++ " cookies")⟩ :=
  ⟨rfl, rfl⟩

/-- Claim C2 counterexample: with an empty jar, a browser *launch* failure
inside the triggered refresh propagates out of `getFacilityAvailability`
(the `await this.refreshCookies()` is not wrapped in any `try`), so the
availability request is never attempted even though the backend would have
answered 200. -/
theorem getFacilityAvailability_launch_abort :
    getFacilityAvailability [] (.launchFailure "Failed to launch the browser process")
        "123" "2024-01-15" 0 (.response 200 "OK" (Json.obj [("ok", Json.bool true)])) =
      (.error "Failed to launch the browser process", []) := rfl

/-- Claim C2 (amended): a call on an empty jar triggers exactly one refresh
before the request is built; when that refresh fails with a *caught*
(post-launch) error the request is still attempted with an empty cookie set
(no Cookie header); a browser launch failure instead aborts the call; a call
on a non-empty jar triggers no refresh. -/
theorem getFacilityAvailability_bestEffort (facilityId date : String)
    (now : Nat) (msg : String) (net : HttpOutcome) :
    getFacilityAvailability [] (.navFailure msg) facilityId date now net =
      (.ok ⟨availabilityResponse net, buildDailyRequest [] facilityId date now, 1⟩,
       []) ∧
    List.lookup "Cookie" (buildDailyRequest [] facilityId date now).headers = none ∧
    (∀ msg2, getFacilityAvailability [] (.launchFailure msg2) facilityId date now net =
      (.error msg2, [])) ∧
    (∀ c rest browser,
      getFacilityAvailability (c :: rest) browser facilityId date now net =
        (.ok ⟨availabilityResponse net,
              buildDailyRequest (c :: rest) facilityId date now, 0⟩,
         c :: rest)) :=
  ⟨rfl, rfl, fun _ => rfl, fun _ _ _ => rfl⟩

/-- Claim C3 counterexample: on a successful harvest of two cookies the
TypeScript `refreshCookies` returns `{success: true, data: true,
message: "Got 2 cookies"}` — the `data` payload is the boolean `true`, and
the count 2 appears only inside the human-readable message; only the legacy
JavaScript variant returns the count (`cookieCount: 2`) as payload. -/
theorem refreshCookies_payload_is_boolean :
    refreshCookies [] (.success [("JSESSIONID", "abc123"), ("bm_sv", "xyz")]) =
      (.ok ⟨true, some true, none, some "Got 2 cookies"⟩,
       [("JSESSIONID", "abc123"), ("bm_sv", "xyz")]) ∧
    refreshCookiesJs [] (.success [("JSESSIONID", "abc123"), ("bm_sv", "xyz")]) =
      (.ok ⟨true, some 2, none⟩, [("JSESSIONID", "abc123"), ("bm_sv", "xyz")]) :=
  ⟨rfl, rfl⟩

/-- Claim C3 (amended): on every successful acquisition the TypeScript
`refreshCookies` returns success with boolean payload `true` and a message
embedding the number of entries stored into the jar, while the legacy
JavaScript variant returns that entry count as its `cookieCount` payload;
in both, the jar is replaced by exactly the harvested entries. -/
theorem refreshCookies_success_payload (jar : CookieData)
    (cs : List (String × String)) :
    refreshCookies jar (.success cs) =
      (.ok ⟨true, some true, none,
            some ("Got " ++ toString (harvestCookies cs).length ++ " cookies")⟩,
       harvestCookies cs) ∧
    refreshCookiesJs jar (.success cs) =
      (.ok ⟨true, some (harvestCookies cs).length, none⟩, harvestCookies cs) :=
  ⟨rfl, rfl⟩

/-- Claim C7 counterexample: a catalog document that is valid JSON but not
the expected mapping shape (here the number 42) does *not* fail —
`Object.entries(42)` is empty, so `getAllFacilities` returns a success with
an empty list. -/
theorem getAllFacilities_shape_not_validated :
    getAllFacilities (.ok (Json.num 42)) = ⟨true, some [], none, none⟩ := rfl

/-- Claim C7 (amended): `getAllFacilities` fails with the underlying message
whenever the catalog document is missing/unreadable or its text is not valid
JSON (the read/parse `Except.error` case), and the failure is surfaced
as-is; but the expected mapping shape is not validated — a parseable
document of the wrong shape can still produce a success. -/
theorem getAllFacilities_read_failure (msg : String) :
    getAllFacilities (.error msg) = ⟨false, none, some msg, none⟩ ∧
    getAllFacilities (.ok (Json.num 42)) = ⟨true, some [], none, none⟩ :=
  ⟨rfl, rfl⟩

/-- Claim C9: the jar starts empty at construction; a refresh that fails
before harvest (whether the launch throw or a caught post-launch error)
leaves the jar untouched; a successful refresh replaces the jar wholesale
with exactly the harvested entries, independent of the previous jar (no
merging); and an availability call on a non-empty jar never changes the
jar, whatever the HTTP outcome. -/
theorem cookieJar_lifecycle :
    initialCookies = [] ∧
    (∀ jar msg, refreshCookies jar (.launchFailure msg) = (.error msg, jar)) ∧
    (∀ jar msg, refreshCookies jar (.navFailure msg) =
      (.ok ⟨false, none, some msg, none⟩, jar)) ∧
    (∀ jar cs, (refreshCookies jar (.success cs)).2 = harvestCookies cs) ∧
    (∀ c rest browser facilityId date now net,
      (getFacilityAvailability (c :: rest) browser facilityId date now net).2 =
        c :: rest) :=
  ⟨rfl, fun _ _ => rfl, fun _ _ => rfl, fun _ _ => rfl,
   fun _ _ _ _ _ _ _ => rfl⟩

/-- Claim C4: for every well-shaped catalog document (whose raw records do
not carry `center_name`), `getAllFacilities` succeeds with exactly the
concatenation, in document order, of every center's records, one output
record per source record (so M records for M total resources), and each
output record is its source record with `center_name` set by the loader to
the center key it was listed under. -/
theorem getAllFacilities_flatten (d : ShapedDoc)
    (hraw : ∀ p ∈ d, ∀ r ∈ p.2.getD [], hasField r "center_name" = false) :
    getAllFacilities (.ok (encodeDoc d)) =
      ⟨true, some (flattenShaped d), none, none⟩ ∧
    (flattenShaped d).length = totalResources d ∧
    (∀ f ∈ flattenShaped d, ∃ p ∈ d, ∃ r ∈ p.2.getD [],
      f = labelRecord p.1 r ∧
      jsGetField f "center_name" = some (Json.str p.1)) := by
  refine ⟨?_, flattenShaped_length d, ?_⟩
  · simp [getAllFacilities, getAllFacilitiesRun, encodeDoc, jsEntries,
      collectFacilities_encode d]
  · intro f hf
    rcases mem_flattenShaped hf with ⟨p, hp, r, hr, hfr⟩
    refine ⟨p, hp, r, hr, hfr, ?_⟩
    rw [hfr]
    exact jsGetField_labelRecord p.1 r (hraw p hp r hr)

/-- Claim C4 witness: the loader applied to the concrete two-center document
`sampleDoc` (one resource in total, raw record without `center_name`). -/
theorem getAllFacilities_flatten_witness :
    hasField sampleRecord "center_name" = false ∧
    getAllFacilities (.ok (encodeDoc sampleDoc)) =
      ⟨true, some [Json.obj [("id", Json.str "42"), ("name", Json.str "Gymnasium 1"),
        ("center_name", Json.str "Central Library")]], none, none⟩ :=
  ⟨rfl, (getAllFacilities_flatten sampleDoc (by
    intro p hp r hr
    rcases List.mem_cons.mp hp with h1 | h1
    · subst h1
      rcases List.mem_cons.mp hr with h2 | h2
      · subst h2; rfl
      · exact absurd h2 (List.not_mem_nil r)
    · rcases List.mem_cons.mp h1 with h2 | h2
      · subst h2; simp at hr
      · exact absurd h2 (List.not_mem_nil p))).1⟩

/-- Claim C5: `getFacilitiesByCenter` returns a success with the empty list
whenever the requested center name is falsy (empty string), absent from the
document, or present but mapped to a missing or empty facilities list —
making "no such center" and "center with zero resources" indistinguishable
to the caller. -/
theorem getFacilitiesByCenter_empty (fs : List (String × Json))
    (centerName : String)
    (h : centerName = "" ∨ List.lookup centerName fs = none ∨
      (∃ cfs, List.lookup centerName fs = some (Json.obj cfs) ∧
        (List.lookup "facilities" cfs = none ∨
         List.lookup "facilities" cfs = some (Json.arr [])))) :
    getFacilitiesByCenter (.ok (Json.obj fs)) centerName =
      ⟨true, some [], none, none⟩ := by
  rcases h with h | h | ⟨cfs, hc, hf⟩
  · subst h
    rfl
  · by_cases hcn : centerName = ""
    · subst hcn; rfl
    · simp [getFacilitiesByCenter, getFacilitiesByCenterRun, hcn, jsGetProp,
        h, jsTruthy]
  · by_cases hcn : centerName = ""
    · subst hcn; rfl
    · rcases hf with hf | hf <;>
        simp [getFacilitiesByCenter, getFacilitiesByCenterRun, hcn, jsGetProp,
          hc, hf, jsTruthy, jsForEach, labelAll]

/-- Claim C5 witness: an absent center key on a concrete document with one
center whose facilities list is empty; the requested name is missing. -/
theorem getFacilitiesByCenter_empty_witness :
    getFacilitiesByCenter
        (.ok (Json.obj [("Central Library", Json.obj [("facilities", Json.arr [])])]))
        "Port Credit Arena" = ⟨true, some [], none, none⟩ :=
  getFacilitiesByCenter_empty
    [("Central Library", Json.obj [("facilities", Json.arr [])])]
    "Port Credit Arena" (Or.inr (Or.inl rfl))

/-- Claim C6: for every catalog document (an object, whose keys are unique
by construction of a parsed JSON object), `getUniqueCenters` succeeds with
exactly the document's top-level keys — a permutation of them — sorted
ascending in the code-unit (case-sensitive) string order and free of
duplicates. -/
theorem getUniqueCenters_sorted (fs : List (String × Json))
    (h : (fs.map Prod.fst).Nodup) :
    getUniqueCenters (.ok (Json.obj fs)) =
      ⟨true, some (List.insertionSort strLE (fs.map Prod.fst)), none, none⟩ ∧
    (List.insertionSort strLE (fs.map Prod.fst)).Perm (fs.map Prod.fst) ∧
    List.Sorted strLE (List.insertionSort strLE (fs.map Prod.fst)) ∧
    (List.insertionSort strLE (fs.map Prod.fst)).Nodup := by
  refine ⟨rfl, List.perm_insertionSort strLE _, ?_, ?_⟩
  · haveI : IsTotal String strLE := ⟨strLE_total⟩
    haveI : IsTrans String strLE := ⟨fun a b c => strLE_trans a b c⟩
    exact List.sorted_insertionSort strLE _
  · exact (List.perm_insertionSort strLE (fs.map Prod.fst)).symm.nodup h

/-- Claim C6 witness: two concrete centers listed out of order come back
sorted ascending with no duplicates. -/
theorem getUniqueCenters_sorted_witness :
    (([("Mississauga Valley CC", Json.obj []), ("Burnhamthorpe CC", Json.obj [])] :
        List (String × Json)).map Prod.fst).Nodup ∧
    getUniqueCenters (.ok (Json.obj [("Mississauga Valley CC", Json.obj []),
        ("Burnhamthorpe CC", Json.obj [])])) =
      ⟨true, some ["Burnhamthorpe CC", "Mississauga Valley CC"], none, none⟩ := by
  constructor
  · decide
  · exact (getUniqueCenters_sorted
      [("Mississauga Valley CC", Json.obj []), ("Burnhamthorpe CC", Json.obj [])]
      (by decide)).1

/-- Claim C8: whatever the jar (here any non-empty jar, so no refresh is
triggered), a backend response of HTTP 200 with a truthy body makes
`getFacilityAvailability` return `{success: true, data: body}` with the
body passed through verbatim — no validation, no transformation. -/
theorem getFacilityAvailability_passthrough (c : String × String)
    (rest : CookieData) (browser : BrowserOutcome)
    (facilityId date statusText : String) (now : Nat) (body : Json)
    (hbody : jsTruthy body = true) :
    getFacilityAvailability (c :: rest) browser facilityId date now
        (.response 200 statusText body) =
      (.ok ⟨⟨true, some body, none, none⟩,
            buildDailyRequest (c :: rest) facilityId date now, 0⟩,
       c :: rest) := by
  simp [getFacilityAvailability, availabilityResponse, axiosRun, hbody]

/-- Claim C8 witness: the mocked backend of the spec — HTTP 200 with body
`{"ok": true}` for `getFacilityAvailability("123", "2024-01-15")` — yields
`{success: true, data: {"ok": true}}` verbatim. -/
theorem getFacilityAvailability_passthrough_witness :
    jsTruthy (Json.obj [("ok", Json.bool true)]) = true ∧
    getFacilityAvailability [("JSESSIONID", "abc123")] (.success [])
        "123" "2024-01-15" 1700000000000
        (.response 200 "OK" (Json.obj [("ok", Json.bool true)])) =
      (.ok ⟨⟨true, some (Json.obj [("ok", Json.bool true)]), none, none⟩,
            buildDailyRequest [("JSESSIONID", "abc123")] "123" "2024-01-15"
              1700000000000, 0⟩,
       [("JSESSIONID", "abc123")]) :=
  ⟨rfl, getFacilityAvailability_passthrough ("JSESSIONID", "abc123") []
    (.success []) "123" "2024-01-15" "OK" 1700000000000
    (Json.obj [("ok", Json.bool true)]) rfl⟩

/-- Claim C10: the daily and the weekly availability methods build the same
request — same `…/rest/reservation/resource/availability/daily/{id}` path
(no distinct weekly endpoint), same query parameters up to the
`ui_random` cache-busting token, same headers — differing only in the
timeout (10000 ms daily, 15000 ms weekly); and each method sends exactly
the request its builder describes. -/
theorem dailyWeekly_same_request (c : String × String) (rest : CookieData)
    (cookies : CookieData) (facilityId date : String) (now now2 : Nat)
    (browser : BrowserOutcome) (net : HttpOutcome) :
    buildDailyRequest cookies facilityId date now =
      { buildWeeklyRequest cookies facilityId date date now with
        timeout := 10000 } ∧
    (buildDailyRequest cookies facilityId date now).timeout = 10000 ∧
    (buildWeeklyRequest cookies facilityId date date now).timeout = 15000 ∧
    (buildWeeklyRequest cookies facilityId date date now2).url =
      baseUrl ++ "/rest/reservation/resource/availability/daily/" ++ facilityId ∧
    (buildDailyRequest cookies facilityId date now).url =
      (buildWeeklyRequest cookies facilityId date date now2).url ∧
    (buildDailyRequest cookies facilityId date now).headers =
      (buildWeeklyRequest cookies facilityId date date now2).headers ∧
    stripParam "ui_random" (buildDailyRequest cookies facilityId date now).params =
      stripParam "ui_random" (buildWeeklyRequest cookies facilityId date date now2).params ∧
    ((getFacilityAvailability (c :: rest) browser facilityId date now net).1.map
      (fun call => call.request)) =
        .ok (buildDailyRequest (c :: rest) facilityId date now) ∧
    ((getFacilityWeeklyAvailability (c :: rest) browser facilityId date date now
        net).1.map (fun call => call.request)) =
        .ok (buildWeeklyRequest (c :: rest) facilityId date date now) :=
  ⟨rfl, rfl, rfl, rfl, rfl, rfl, rfl, rfl, rfl⟩
